import Mathlib

/-!
Shallow embedding of the blog application in `main.py`: the entry data model,
the datastore access helpers, the memcache slot for recent entries, Django's
`slugify`, and the request handlers the specification's claims refer to
(delete, main listing, permalink, new/edit).  External collaborators (the
datastore, memcache, the identity service, the template engine) are modelled
as explicit values: the store as an association list, the cache slot as an
`Option`, the current identity as an `Option User`, and a rendered template
as the name of the template file together with the context values the
handler computes.
-/

namespace Blog

/-- Blog entry record, after `class Entry(db.Model)` in main.py: author,
title, slug, body, published/updated timestamps and a list of tag strings.
Timestamps are modelled as naturals. -/
structure Entry where
  author : String
  title : String
  slug : String
  body : String
  published : Nat
  updated : Nat
  tags : List String
deriving DecidableEq

/-- The datastore, modelled as an association list from key strings to
entries. -/
abbrev Store := List (String × Entry)

/-- The memcache slot `recent/entries`: `none` when the key is absent. -/
abbrev Cache := Option (List Entry)

/-- `db.get(key)`: a key either resolves to a stored entry or raises
`BadKeyError`, modelled as `none`. -/
def dbGet : Store → String → Option Entry
  | [], _ => none
  | (k', e) :: rest, k => if k' = k then some e else dbGet rest k

/-- `entity.put()`: replaces the entry stored under the key, or appends a
fresh binding. -/
def dbPut : Store → String → Entry → Store
  | [], k, e => [(k, e)]
  | (k', e') :: rest, k, e =>
    if k' = k then (k, e) :: rest else (k', e') :: dbPut rest k e

/-- `entity.delete()`: removes the entry stored under the key. -/
def dbDelete (st : Store) (k : String) : Store :=
  st.filter (fun p => p.1 ≠ k)

/-- All stored entries, the universe queried by `db.Query(Entry)`. -/
def storeEntries (st : Store) : List Entry :=
  st.map (fun p => p.2)

/-- Insertion into a list sorted by the boolean comparison `le`. -/
def insertSorted {α : Type} (le : α → α → Bool) (e : α) : List α → List α
  | [] => [e]
  | x :: xs => if le e x then e :: x :: xs else x :: insertSorted le e xs

/-- Insertion sort by the boolean comparison `le`; models the datastore
`order()` clause applied to a query's result set. -/
def sortBy {α : Type} (le : α → α → Bool) (l : List α) : List α :=
  l.foldr (insertSorted le) []

/-- `order('-published')`: newest first. -/
def sortPublishedDesc (l : List Entry) : List Entry :=
  sortBy (fun a b => decide (b.published ≤ a.published)) l

/-- `order('published')`: oldest first. -/
def sortPublishedAsc (l : List Entry) : List Entry :=
  sortBy (fun a b => decide (a.published ≤ b.published)) l

/-- ASCII word characters, the `\w` class of Python 2 `re`. -/
def isWordChar (c : Char) : Bool :=
  c.isAlpha || c.isDigit || c == '_'

/-- ASCII whitespace, the `\s` class of Python 2 `re`. -/
def isSpaceChar (c : Char) : Bool :=
  c == ' ' || c == '\t' || c == '\n' || c == '\x0d' || c == '\x0b' || c == '\x0c'

/-- Characters matched by the `[-\s]` class. -/
def isSpaceDash (c : Char) : Bool :=
  isSpaceChar c || c == '-'

/-- `str.strip()`: drop leading and trailing whitespace. -/
def stripSpaces (l : List Char) : List Char :=
  ((l.dropWhile isSpaceChar).reverse.dropWhile isSpaceChar).reverse

/-- Replacement of every maximal run of whitespace-or-hyphen characters by a
single hyphen, the second `re.sub` of Django's `slugify`. -/
def collapseRuns : List Char → List Char
  | [] => []
  | c :: cs =>
    let rest := collapseRuns cs
    if isSpaceDash c then
      match rest with
      | '-' :: _ => rest
      | _ => '-' :: rest
    else c :: rest

/-- `django.template.defaultfilters.slugify` (Django 0.96, the external
collaborator imported by main.py): remove every character that is not a word
character, whitespace or a hyphen; strip; lowercase; then collapse
whitespace/hyphen runs into single hyphens. -/
def slugify (s : String) : String :=
  let kept := s.data.filter (fun c => isWordChar c || isSpaceChar c || c == '-')
  let lowered := (stripSpaces kept).map Char.toLower
  String.mk (collapseRuns lowered)

/-- Splitting of a character list at every comma, the semantics of Python's
`str.split(',')`. -/
def splitComma : List Char → List (List Char)
  | [] => [[]]
  | c :: cs =>
    let rest := splitComma cs
    if c = ',' then [] :: rest
    else
      match rest with
      | [] => [[c]]
      | p :: ps => (c :: p) :: ps

/-- `raw.split(',')` as a list of strings. -/
def splitCommas (raw : String) : List String :=
  (splitComma raw.data).map (fun l => String.mk l)

/-- `NewEntryHandler.get_tags_argument` (main.py lines 161-164): split the raw
comma-separated text, slugify each piece, drop pieces that slugified to the
empty string, and deduplicate (the Python `set`), kept as a duplicate-free
list. -/
def get_tags_argument (raw : String) : List String :=
  (((splitCommas raw).map slugify).filter (fun t => decide (t ≠ ""))).dedup

/-- `simplejson.dumps` of a dict holding the single boolean field `success`. -/
def jsonSuccess (b : Bool) : String :=
  "\x7b\"success\": " ++ (if b then "true" else "false") ++ "\x7d"

/-- Identity returned by the external `users` service, with its admin flag. -/
structure User where
  nickname : String
  isAdmin : Bool
deriving DecidableEq

/-- Outcome of a handler method wrapped by the `admin` decorator: a redirect,
an HTTP error response, or the wrapped method's own result. -/
inductive AdminResult (α : Type) where
  | redirect (url : String)
  | error (code : Nat)
  | invoked (a : α)
deriving DecidableEq

/-- `admin` decorator (main.py lines 20-32).  `loginUrl` models
`users.create_login_url` applied to the request URI, `user` is the current
identity (with its admin flag), and `wrapped` stands for the outcome of the
guarded handler method. -/
def admin {α : Type} (loginUrl : String → String) (user : Option User)
    (reqMethod : String) (reqUri : String) (wrapped : α) : AdminResult α :=
  match user with
  | none =>
    if reqMethod = "GET" then .redirect (loginUrl reqUri)
    else .error 403
  | some u =>
    if !u.isAdmin then .error 403
    else .invoked wrapped

/-- `db.Query(Entry).order('-published').fetch(limit=5)`. -/
def queryRecent (st : Store) : List Entry :=
  (sortPublishedDesc (storeEntries st)).take 5

/-- Python truthiness of the `memcache.get` result: `None` and the empty list
are both falsy. -/
def cacheTruthy : Cache → Bool
  | none => false
  | some l => !l.isEmpty

/-- `BaseRequestHandler.get_recent_entries` (main.py lines 56-62): returns the
new cache contents together with the entry list handed to the template. -/
def get_recent_entries (st : Store) (cache : Cache) : Cache × List Entry :=
  if cacheTruthy cache then (cache, cache.getD [])
  else (some (queryRecent st), queryRecent st)

/-- `DeleteEntryHandler.post` body (main.py lines 113-123), after the `admin`
gate has admitted the request: returns the new store, the new cache and the
JSON body written.  In the `BadKeyError` branch the handler binds
`data = {'success': False}`, but line 121 unconditionally rebinds
`data = {'success': True}` before the response is written, so the `False`
binding is dead in both branches. -/
def deleteEntryPost (st : Store) (cache : Cache) (key : String) :
    Store × Cache × String :=
  match dbGet st key with
  | some _ =>
    let st' := dbDelete st key
    let data := jsonSuccess true
    (st', none, data)
  | none =>
    let _data := jsonSuccess false
    let data := jsonSuccess true
    (st, cache, data)

/-- Context handed to `main.html`: the fields are the template keys set by
`MainPageHandler.get`. -/
structure MainContext where
  entries : List Entry
  next : Int
  previous : Int
deriving DecidableEq

/-- Outcome of `MainPageHandler.get`. -/
inductive MainResult where
  | redirect (url : String)
  | feed (entries : List Entry)
  | page (ctx : MainContext)
deriving DecidableEq

/-- `MainPageHandler.get` (main.py lines 144-157).  `offset` is the integer
already recovered by `get_integer_argument('start', 0)`; `format` is the raw
`format` query parameter. -/
def mainPageGet (entries : List Entry) (offset : Int) (format : Option String) :
    MainResult :=
  let fetched := ((sortPublishedDesc entries).drop offset.toNat).take 10
  if fetched = [] ∧ 0 < offset then .redirect "/"
  else if format = some "atom" then .feed fetched
  else .page {
    entries := fetched, next := max (offset - 10) 0,
    previous := offset + 10 }

/-- Context handed to `entry.html`; `previous`/`next` are `none` exactly when
`EntryPageHandler.get` leaves the corresponding template key out of the
context dict. -/
structure EntryContext where
  entries : List Entry
  entry : Entry
  previous : Option Entry
  next : Option Entry
deriving DecidableEq

/-- Outcome of `EntryPageHandler.get`. -/
inductive EntryPageResult where
  | notFound
  | page (ctx : EntryContext)
deriving DecidableEq

/-- `EntryPageHandler.get` (main.py lines 126-141): look the entry up by slug
(first match wins), then fetch the first result of each filtered, ordered
neighbor query. -/
def entryPageGet (entries : List Entry) (slug : String) : EntryPageResult :=
  match (entries.filter (fun e => decide (e.slug = slug))).head? with
  | none => .notFound
  | some entry =>
    let previous :=
      (sortPublishedDesc (entries.filter
        (fun e => decide (e.published < entry.published)))).head?
    let next :=
      (sortPublishedAsc (entries.filter
        (fun e => decide (entry.published < e.published)))).head?
    .page {
      entries := [entry], entry := entry,
      previous := previous, next := next }

/-- Response of the create/edit handler: a redirect or a rendered template. -/
inductive HResponse where
  | redirect (url : String)
  | render (tmpl : String)
deriving DecidableEq

/-- `NewEntryHandler.get` (main.py lines 167-178), after the `admin` gate: a
key that raises `BadKeyError` redirects to the blank create form. -/
def newEntryGet (st : Store) (key : Option String) : HResponse :=
  match key with
  | none => .render "new.html"
  | some k =>
    match dbGet st k with
    | some _ => .render "new.html"
    | none => .redirect "/new"

/-- Validity of `EntryForm(data=...)`, the Django `ModelForm` over `Entry`
with author, slug, published, updated and tags excluded: its required fields
`title` and `body` must be present and non-empty.  Modelled behavior of the
external forms collaborator. -/
def formIsValid (title body : String) : Bool :=
  decide (title ≠ "") && decide (body ≠ "")

/-- Store, cache and response after `NewEntryHandler.post`. -/
structure PostOutcome where
  store : Store
  cache : Cache
  response : HResponse
deriving DecidableEq

/-- `NewEntryHandler.post` (main.py lines 181-209), after the `admin` gate:
`key` is the optional path argument (present for `/edit/<key>`), `now` the
current time used by the automatic timestamps, and `freshKey` the store key
the datastore assigns when a new entity is put. -/
def newEntryPost (st : Store) (cache : Cache) (user : User) (key : Option String)
    (title body tagsRaw : String) (now : Nat) (freshKey : String) : PostOutcome :=
  if formIsValid title body then
    match key with
    | some k =>
      match dbGet st k with
      | some entry =>
        let entry := { entry with
          body := body, title := title,
          tags := get_tags_argument tagsRaw, updated := now }
        { store := dbPut st k entry, cache := none,
          response := .redirect ("/e/" ++ entry.slug) }
      | none =>
        { store := st, cache := cache, response := .render "new.html" }
    | none =>
      let entry : Entry := {
        author := user.nickname, title := title, slug := slugify title,
        body := body, published := now, updated := now,
        tags := get_tags_argument tagsRaw }
      { store := dbPut st freshKey entry, cache := none,
        response := .redirect ("/e/" ++ entry.slug) }
  else
    { store := st, cache := cache, response := .render "new.html" }

/-- Sample entry used by concrete witnesses and counterexamples, published
first. -/
def eA : Entry :=
  { author := "ben", title := "A", slug := "a", body := "xa",
    published := 1, updated := 1, tags := [] }

/-- Sample entry published second. -/
def eB : Entry :=
  { author := "ben", title := "B", slug := "b", body := "xb",
    published := 2, updated := 2, tags := [] }

/-- Sample entry published third. -/
def eC : Entry :=
  { author := "ben", title := "C", slug := "c", body := "xc",
    published := 3, updated := 3, tags := [] }

/-! ### Helper lemmas about the store and the sort used by the queries -/

theorem mem_insertSorted {α : Type} (le : α → α → Bool) (e a : α)
    (l : List α) : a ∈ insertSorted le e l ↔ a = e ∨ a ∈ l := by
  induction l with
  | nil => simp [insertSorted]
  | cons x xs ih =>
    simp only [insertSorted]
    split
    · simp [List.mem_cons]
    · simp only [List.mem_cons, ih]
      tauto

theorem sortBy_cons {α : Type} (le : α → α → Bool) (x : α) (xs : List α) :
    sortBy le (x :: xs) = insertSorted le x (sortBy le xs) := rfl

theorem mem_sortBy {α : Type} (le : α → α → Bool) (a : α) (l : List α) :
    a ∈ sortBy le l ↔ a ∈ l := by
  induction l with
  | nil => simp [sortBy]
  | cons x xs ih =>
    rw [sortBy_cons, mem_insertSorted, ih, List.mem_cons]

theorem pairwise_insertSorted {α : Type} (le : α → α → Bool)
    (htot : ∀ a b, le a b = true ∨ le b a = true)
    (htrans : ∀ a b c, le a b = true → le b c = true → le a c = true)
    (e : α) (l : List α) (h : l.Pairwise fun x y => le x y = true) :
    (insertSorted le e l).Pairwise fun x y => le x y = true := by
  induction l with
  | nil => simp [insertSorted]
  | cons x xs ih =>
    rw [List.pairwise_cons] at h
    obtain ⟨hx, hxs⟩ := h
    simp only [insertSorted]
    split
    · rename_i hle
      rw [List.pairwise_cons]
      refine ⟨?_, List.pairwise_cons.mpr ⟨hx, hxs⟩⟩
      intro y hy
      rcases List.mem_cons.mp hy with rfl | hy'
      · exact hle
      · exact htrans e x y hle (hx y hy')
    · rename_i hle
      rw [List.pairwise_cons]
      refine ⟨?_, ih hxs⟩
      intro y hy
      rcases (mem_insertSorted le e y xs).mp hy with hye | hy'
      · subst hye
        rcases htot y x with hex | hxe
        · exact absurd hex hle
        · exact hxe
      · exact hx y hy'

theorem pairwise_sortBy {α : Type} (le : α → α → Bool)
    (htot : ∀ a b, le a b = true ∨ le b a = true)
    (htrans : ∀ a b c, le a b = true → le b c = true → le a c = true)
    (l : List α) :
    (sortBy le l).Pairwise fun x y => le x y = true := by
  induction l with
  | nil => simp [sortBy]
  | cons x xs ih =>
    rw [sortBy_cons]
    exact pairwise_insertSorted le htot htrans x _ ih

theorem head_sortBy_spec {α : Type} (le : α → α → Bool)
    (htot : ∀ a b, le a b = true ∨ le b a = true)
    (htrans : ∀ a b c, le a b = true → le b c = true → le a c = true)
    (l : List α) (a : α) (ha : (sortBy le l).head? = some a) :
    a ∈ l ∧ ∀ b ∈ l, le a b = true := by
  have hp := pairwise_sortBy le htot htrans l
  cases hs : sortBy le l with
  | nil => rw [hs] at ha; cases ha
  | cons x rest =>
    rw [hs] at ha hp
    have hxa : x = a := by
      simpa using ha
    subst hxa
    have hmem : x ∈ l := (mem_sortBy le x l).mp (by rw [hs]; exact List.mem_cons_self x rest)
    refine ⟨hmem, ?_⟩
    intro b hb
    have hb' : b ∈ sortBy le l := (mem_sortBy le b l).mpr hb
    rw [hs] at hb'
    rcases List.mem_cons.mp hb' with rfl | hbr
    · rcases htot b b with h | h <;> exact h
    · exact (List.pairwise_cons.mp hp).1 b hbr

theorem sortBy_head_none {α : Type} (le : α → α → Bool) (l : List α)
    (h : (sortBy le l).head? = none) : l = [] := by
  cases l with
  | nil => rfl
  | cons x xs =>
    exfalso
    have hx : x ∈ sortBy le (x :: xs) :=
      (mem_sortBy le x _).mpr (List.mem_cons_self x xs)
    cases hs : sortBy le (x :: xs) with
    | nil => rw [hs] at hx; cases hx
    | cons y ys => rw [hs] at h; cases h

theorem descLe_total (a b : Entry) :
    decide (b.published ≤ a.published) = true ∨
    decide (a.published ≤ b.published) = true := by
  rcases Nat.le_total b.published a.published with h | h
  · exact Or.inl (decide_eq_true h)
  · exact Or.inr (decide_eq_true h)

theorem descLe_trans (a b c : Entry)
    (hab : decide (b.published ≤ a.published) = true)
    (hbc : decide (c.published ≤ b.published) = true) :
    decide (c.published ≤ a.published) = true :=
  decide_eq_true (Nat.le_trans (of_decide_eq_true hbc) (of_decide_eq_true hab))

theorem ascLe_total (a b : Entry) :
    decide (a.published ≤ b.published) = true ∨
    decide (b.published ≤ a.published) = true := by
  rcases Nat.le_total a.published b.published with h | h
  · exact Or.inl (decide_eq_true h)
  · exact Or.inr (decide_eq_true h)

theorem ascLe_trans (a b c : Entry)
    (hab : decide (a.published ≤ b.published) = true)
    (hbc : decide (b.published ≤ c.published) = true) :
    decide (a.published ≤ c.published) = true :=
  decide_eq_true (Nat.le_trans (of_decide_eq_true hab) (of_decide_eq_true hbc))

theorem dbGet_dbPut_self (st : Store) (k : String) (e : Entry) :
    dbGet (dbPut st k e) k = some e := by
  induction st with
  | nil => simp [dbPut, dbGet]
  | cons p rest ih =>
    obtain ⟨k', e'⟩ := p
    by_cases h : k' = k
    · subst h; simp [dbPut, dbGet]
    · simp [dbPut, dbGet, h, ih]

/-! ### Claims -/

/-- C1: the claim states that a POST to /delete whose key raises BadKeyError
answers with a success-false JSON body.  In the code the except-branch
binding of success false is dead: line 121 unconditionally rebinds the body
to success true, so on the sample store the unknown key bogus leaves store
and cache untouched yet the written body is the success-true JSON, which
differs from the claimed success-false body; moreover for every store, cache
and key the written body is the success-true JSON. -/
theorem C1_delete_always_reports_success :
    deleteEntryPost [("a", eA)] (some [eA]) "bogus" =
      ([("a", eA)], some [eA], jsonSuccess true) ∧
    jsonSuccess true ≠ jsonSuccess false ∧
    ∀ (st : Store) (cache : Cache) (key : String),
      (deleteEntryPost st cache key).2.2 = jsonSuccess true := by
  refine ⟨by decide, by decide, ?_⟩
  intro st cache key
  unfold deleteEntryPost
  cases dbGet st key <;> rfl

/-- C2 counterexample: at offset 10 over eleven stored entries the rendered
context binds the template key previous to 20, not to the claimed
max(10 - 10, 0) = 0; the code keeps the lower offset under the key next. -/
theorem C2_previous_offset_counterexample :
    mainPageGet (List.replicate 11 eA) 10 none =
      .page { entries := [eA], next := 0, previous := 20 } ∧
    ¬ ((20 : Int) = max ((10 : Int) - 10) 0) := by
  exact ⟨by decide, by decide⟩

/-- C2 (amended): whenever the main listing renders a page at integer offset
o, the context key next holds max(o - 10, 0) and the key previous holds
o + 10 — the two computed offsets are exactly the claim's values, but the
code binds the smaller one to the template key next and the larger one to
previous, swapped relative to the claim's naming; in particular at offset 0
the key next is 0. -/
theorem C2_page_offsets (entries : List Entry) (offset : Int)
    (format : Option String) (ctx : MainContext)
    (h : mainPageGet entries offset format = .page ctx) :
    ctx.next = max (offset - 10) 0 ∧ ctx.previous = offset + 10 := by
  simp only [mainPageGet] at h
  by_cases hc : ((sortPublishedDesc entries).drop offset.toNat).take 10 = [] ∧ 0 < offset
  · rw [if_pos hc] at h
    exact MainResult.noConfusion h
  · rw [if_neg hc] at h
    by_cases hf : format = some "atom"
    · rw [if_pos hf] at h
      exact MainResult.noConfusion h
    · rw [if_neg hf] at h
      rw [MainResult.page.injEq] at h
      subst h
      exact ⟨rfl, rfl⟩

/-- C2 witness: at offset 0 on a one-entry store the page renders and the
amended offsets hold. -/
theorem C2_page_offsets_witness :
    mainPageGet [eA] 0 none = .page { entries := [eA], next := 0, previous := 10 } ∧
    MainContext.next { entries := [eA], next := 0, previous := 10 } = max ((0 : Int) - 10) 0 ∧
    MainContext.previous { entries := [eA], next := 0, previous := 10 } = (0 : Int) + 10 := by
  refine ⟨by decide, ?_⟩
  exact C2_page_offsets [eA] 0 none _ (by decide)

/-- C3: the main listing redirects to the root path exactly when the fetched
page is empty and the offset is strictly positive; when the offset is at
most 0 or the fetched page is non-empty, no redirect at all is issued. -/
theorem C3_empty_page_redirect (entries : List Entry) (offset : Int)
    (format : Option String) :
    ((((sortPublishedDesc entries).drop offset.toNat).take 10 = [] ∧ 0 < offset) →
      mainPageGet entries offset format = .redirect "/") ∧
    ((((sortPublishedDesc entries).drop offset.toNat).take 10 ≠ [] ∨ offset ≤ 0) →
      ∀ url, mainPageGet entries offset format ≠ .redirect url) := by
  constructor
  · intro h
    unfold mainPageGet
    rw [if_pos h]
  · intro h url
    unfold mainPageGet
    rw [if_neg]
    · split <;> intro hc <;> cases hc
    · rcases h with h | h
      · intro hc
        exact absurd hc.1 h
      · intro hc
        omega
  -- conditions unfolded via the let-bound fetched list

/-- C3 witness: with one stored entry and offset 5, the fetched page is
empty and the offset positive, so the handler redirects to the root; at
offset 0 no redirect occurs. -/
theorem C3_empty_page_redirect_witness :
    mainPageGet [eA] 5 none = .redirect "/" ∧
    ∀ url, mainPageGet [eA] 0 none ≠ .redirect url := by
  constructor
  · exact (C3_empty_page_redirect [eA] 5 none).1 (by decide)
  · exact (C3_empty_page_redirect [eA] 0 none).2 (Or.inr (by decide))

/-- C4: the admin gate redirects an unauthenticated GET to the login URL
built from the request URI without invoking the wrapped method, answers 403
to an unauthenticated non-GET and to every authenticated non-admin request,
and invokes the wrapped method for an authenticated admin. -/
theorem C4_admin_gate {α : Type} (loginUrl : String → String)
    (reqMethod reqUri : String) (u : User) (wrapped : α) :
    (reqMethod = "GET" →
      admin loginUrl none reqMethod reqUri wrapped = .redirect (loginUrl reqUri)) ∧
    (reqMethod ≠ "GET" →
      admin loginUrl none reqMethod reqUri wrapped = .error 403) ∧
    (u.isAdmin = false →
      admin loginUrl (some u) reqMethod reqUri wrapped = .error 403) ∧
    (u.isAdmin = true →
      admin loginUrl (some u) reqMethod reqUri wrapped = .invoked wrapped) := by
  refine ⟨?_, ?_, ?_, ?_⟩ <;> intro h <;> simp [admin, h]

/-- C4 witness: the gate's four outcomes at concrete requests. -/
theorem C4_admin_gate_witness :
    admin (fun uri => "https://login/?continue=" ++ uri) none "GET" "/edit/1" (0 : Nat) =
      .redirect ("https://login/?continue=" ++ "/edit/1") ∧
    admin (fun uri => "https://login/?continue=" ++ uri) none "POST" "/delete" (0 : Nat) =
      .error 403 ∧
    admin (fun uri => "https://login/?continue=" ++ uri)
      (some { nickname := "eve", isAdmin := false }) "POST" "/delete" (0 : Nat) =
      .error 403 ∧
    admin (fun uri => "https://login/?continue=" ++ uri)
      (some { nickname := "ben", isAdmin := true }) "POST" "/delete" (0 : Nat) =
      .invoked 0 := by
  refine ⟨?_, ?_, ?_, ?_⟩
  · exact (C4_admin_gate _ "GET" "/edit/1"
      { nickname := "eve", isAdmin := false } (0 : Nat)).1 rfl
  · exact (C4_admin_gate _ "POST" "/delete"
      { nickname := "eve", isAdmin := false } (0 : Nat)).2.1 (by decide)
  · exact (C4_admin_gate _ "POST" "/delete"
      { nickname := "eve", isAdmin := false } (0 : Nat)).2.2.1 rfl
  · exact (C4_admin_gate _ "POST" "/delete"
      { nickname := "ben", isAdmin := true } (0 : Nat)).2.2.2 rfl

/-- C5 counterexample: with one stored entry and the cache slot holding the
empty list, get_recent_entries does not hand back the cached empty value:
the Python truthiness test treats the cached empty list like a miss, so the
query runs and its non-empty result is stored and returned. -/
theorem C5_empty_cached_list_recomputes :
    get_recent_entries [("a", eA)] (some []) = (some [eA], [eA]) ∧
    ([eA] : List Entry) ≠ [] := by
  exact ⟨by decide, by decide⟩

/-- C5 (amended): get_recent_entries returns the cached value untouched
exactly when the cached list is non-empty; when the slot is absent — and
also when it holds the empty list — the recent-entries query is executed,
its result stored in the slot and returned. -/
theorem C5_recent_cache (st : Store) (cache : Cache) (l : List Entry) :
    (cache = some l → l ≠ [] → get_recent_entries st cache = (cache, l)) ∧
    (cache = none →
      get_recent_entries st cache = (some (queryRecent st), queryRecent st)) ∧
    (cache = some [] →
      get_recent_entries st cache = (some (queryRecent st), queryRecent st)) := by
  refine ⟨?_, ?_, ?_⟩
  · rintro rfl hl
    simp [get_recent_entries, cacheTruthy, List.isEmpty_eq_true, hl]
  · rintro rfl
    rfl
  · rintro rfl
    rfl

/-- C5 witness: a cached non-empty list is returned as is even over the
empty store. -/
theorem C5_recent_cache_witness :
    get_recent_entries [] (some [eA]) = (some [eA], [eA]) :=
  (C5_recent_cache [] (some [eA]) [eA]).1 rfl (by decide)

/-- C6: a successful create, a successful edit and a successful delete each
leave the recent-entries cache slot cleared in the state from which the
response is written, so the next get_recent_entries call recomputes from the
store. -/
theorem C6_mutations_clear_recent_cache (st : Store) (cache : Cache)
    (user : User) (k : String) (title body tagsRaw : String) (now : Nat)
    (freshKey : String) :
    (formIsValid title body = true →
      (newEntryPost st cache user none title body tagsRaw now freshKey).cache = none) ∧
    (formIsValid title body = true → (dbGet st k).isSome = true →
      (newEntryPost st cache user (some k) title body tagsRaw now freshKey).cache = none) ∧
    ((dbGet st k).isSome = true →
      (deleteEntryPost st cache k).2.1 = none) := by
  refine ⟨?_, ?_, ?_⟩
  · intro hv
    simp [newEntryPost, hv]
  · intro hv hk
    obtain ⟨e, he⟩ := Option.isSome_iff_exists.mp hk
    simp [newEntryPost, hv, he]
  · intro hk
    obtain ⟨e, he⟩ := Option.isSome_iff_exists.mp hk
    simp [deleteEntryPost, he]

/-- C6 witness: a concrete create and a concrete delete both clear a warm
cache slot. -/
theorem C6_mutations_clear_recent_cache_witness :
    (newEntryPost [] (some [eA]) { nickname := "ben", isAdmin := true } none
      "T" "B" "" 5 "k1").cache = none ∧
    (deleteEntryPost [("a", eA)] (some [eA]) "a").2.1 = none := by
  constructor
  · exact (C6_mutations_clear_recent_cache [] (some [eA])
      { nickname := "ben", isAdmin := true } "a" "T" "B" "" 5 "k1").1 (by decide)
  · exact (C6_mutations_clear_recent_cache [("a", eA)] (some [eA])
      { nickname := "ben", isAdmin := true } "a" "T" "B" "" 5 "k1").2.2 (by decide)

/-- C7: when the permalink view renders, the context key previous (when
present) holds a stored entry with the greatest published strictly below the
viewed entry's, the key next (when present) a stored entry with the smallest
published strictly above, and a side left out of the context (modelled as
none) means no stored entry lies on that side. -/
theorem C7_adjacency (entries : List Entry) (slug : String) (ctx : EntryContext)
    (h : entryPageGet entries slug = .page ctx) :
    (∀ p, ctx.previous = some p →
      p ∈ entries ∧ p.published < ctx.entry.published ∧
      ∀ q ∈ entries, q.published < ctx.entry.published →
        q.published ≤ p.published) ∧
    (ctx.previous = none →
      ∀ q ∈ entries, ¬ q.published < ctx.entry.published) ∧
    (∀ n, ctx.next = some n →
      n ∈ entries ∧ ctx.entry.published < n.published ∧
      ∀ q ∈ entries, ctx.entry.published < q.published →
        n.published ≤ q.published) ∧
    (ctx.next = none →
      ∀ q ∈ entries, ¬ ctx.entry.published < q.published) := by
  unfold entryPageGet at h
  cases hs : (entries.filter (fun e => decide (e.slug = slug))).head? with
  | none =>
    rw [hs] at h
    exact EntryPageResult.noConfusion h
  | some entry =>
    rw [hs] at h
    rw [EntryPageResult.page.injEq] at h
    subst h
    refine ⟨?_, ?_, ?_, ?_⟩
    · intro p hp
      obtain ⟨hpmem, hple⟩ := head_sortBy_spec _ descLe_total descLe_trans _ p hp
      rw [List.mem_filter] at hpmem
      obtain ⟨hpent, hplt⟩ := hpmem
      refine ⟨hpent, of_decide_eq_true hplt, ?_⟩
      intro q hq hqlt
      have hq' : q ∈ entries.filter (fun e => decide (e.published < entry.published)) :=
        List.mem_filter.mpr ⟨hq, decide_eq_true hqlt⟩
      exact of_decide_eq_true (hple q hq')
    · intro hp q hq hqlt
      have hnil := sortBy_head_none _ _ hp
      have hq' : q ∈ entries.filter (fun e => decide (e.published < entry.published)) :=
        List.mem_filter.mpr ⟨hq, decide_eq_true hqlt⟩
      rw [hnil] at hq'
      cases hq'
    · intro n hn
      obtain ⟨hnmem, hnle⟩ := head_sortBy_spec _ ascLe_total ascLe_trans _ n hn
      rw [List.mem_filter] at hnmem
      obtain ⟨hnent, hnlt⟩ := hnmem
      refine ⟨hnent, of_decide_eq_true hnlt, ?_⟩
      intro q hq hqlt
      have hq' : q ∈ entries.filter (fun e => decide (entry.published < e.published)) :=
        List.mem_filter.mpr ⟨hq, decide_eq_true hqlt⟩
      exact of_decide_eq_true (hnle q hq')
    · intro hn q hq hqlt
      have hnil := sortBy_head_none _ _ hn
      have hq' : q ∈ entries.filter (fun e => decide (entry.published < e.published)) :=
        List.mem_filter.mpr ⟨hq, decide_eq_true hqlt⟩
      rw [hnil] at hq'
      cases hq'

/-- C7 witness: on a three-entry store the permalink of the middle entry
renders with the earlier entry as previous and the later entry as next, and
the previous entry's published bound holds over the whole store. -/
theorem C7_adjacency_witness :
    entryPageGet [eA, eB, eC] "b" =
      .page { entries := [eB], entry := eB, previous := some eA, next := some eC } ∧
    (∀ q ∈ [eA, eB, eC], q.published < eB.published → q.published ≤ eA.published) := by
  refine ⟨by decide, ?_⟩
  have h := C7_adjacency [eA, eB, eC] "b"
    { entries := [eB], entry := eB, previous := some eA, next := some eC } (by decide)
  exact (h.1 eA rfl).2.2

/-- C8: tag normalization splits the raw text on commas, slugifies each
piece, drops the pieces that slugify to the empty string and deduplicates to
set semantics (the result is duplicate-free and membership is exactly the
non-empty slugified pieces); normalizing the sample input yields exactly the
set of foo and bar. -/
theorem C8_tag_normalization :
    (∀ raw t, t ∈ get_tags_argument raw ↔
      t ≠ "" ∧ ∃ piece ∈ splitCommas raw, slugify piece = t) ∧
    (∀ raw, (get_tags_argument raw).Nodup) ∧
    (∀ t, t ∈ get_tags_argument "Foo, foo , BAR" ↔ t = "foo" ∨ t = "bar") := by
  refine ⟨?_, ?_, ?_⟩
  · intro raw t
    simp only [get_tags_argument, List.mem_dedup, List.mem_filter, List.mem_map,
      decide_eq_true_eq]
    tauto
  · intro raw
    exact List.nodup_dedup _
  · intro t
    have h : get_tags_argument "Foo, foo , BAR" = ["foo", "bar"] := by decide
    rw [h]
    simp

/-- C8 witness: foo is among the normalized sample tags. -/
theorem C8_tag_normalization_witness :
    "foo" ∈ get_tags_argument "Foo, foo , BAR" :=
  (C8_tag_normalization.2.2 "foo").mpr (Or.inl rfl)

/-- C9: a successful edit stores, under the same key, an entry whose title,
body and tags are replaced wholesale from the form while the slug (together
with author and published) is carried over from the stored entry — the slug
is never recomputed from the new title. -/
theorem C9_edit_keeps_slug (st : Store) (cache : Cache) (user : User)
    (k : String) (e : Entry) (title body tagsRaw : String) (now : Nat)
    (freshKey : String) (hv : formIsValid title body = true)
    (hk : dbGet st k = some e) :
    dbGet (newEntryPost st cache user (some k) title body tagsRaw now freshKey).store k =
      some { e with
        title := title, body := body,
        tags := get_tags_argument tagsRaw, updated := now } ∧
    ({ e with
        title := title, body := body,
        tags := get_tags_argument tagsRaw, updated := now } : Entry).slug = e.slug := by
  constructor
  · simp [newEntryPost, hv, hk, dbGet_dbPut_self]
  · rfl

/-- C9 witness: editing the stored entry with a new title keeps its slug. -/
theorem C9_edit_keeps_slug_witness :
    dbGet (newEntryPost [("k", eA)] none { nickname := "ben", isAdmin := true }
        (some "k") "New Title" "B2" "T, t" 9 "f").store "k" =
      some { eA with
        title := "New Title", body := "B2",
        tags := get_tags_argument "T, t", updated := 9 } ∧
    ({ eA with
        title := "New Title", body := "B2",
        tags := get_tags_argument "T, t", updated := 9 } : Entry).slug = eA.slug :=
  C9_edit_keeps_slug [("k", eA)] none { nickname := "ben", isAdmin := true }
    "k" eA "New Title" "B2" "T, t" 9 "f" (by decide) (by decide)

/-- C10: a POST to /edit whose key raises BadKeyError, even with a valid
form, leaves the store and the cache untouched and falls through to
re-render the entry form (a render, not a redirect, so HTTP 200); the
redirect to the blank create form on a bad key belongs only to the GET
edit-form view. -/
theorem C10_edit_bad_key_falls_through (st : Store) (cache : Cache)
    (user : User) (k : String) (title body tagsRaw : String) (now : Nat)
    (freshKey : String) (hv : formIsValid title body = true)
    (hk : dbGet st k = none) :
    newEntryPost st cache user (some k) title body tagsRaw now freshKey =
      { store := st, cache := cache, response := .render "new.html" } ∧
    newEntryGet st (some k) = .redirect "/new" := by
  constructor
  · simp [newEntryPost, hv, hk]
  · simp [newEntryGet, hk]

/-- C10 witness: a valid-form edit POST with an unresolvable key changes
nothing and re-renders the form, while the GET view redirects to /new. -/
theorem C10_edit_bad_key_falls_through_witness :
    newEntryPost [("a", eA)] (some [eA]) { nickname := "ben", isAdmin := true }
        (some "bogus") "T" "B" "" 9 "f" =
      { store := [("a", eA)], cache := some [eA], response := .render "new.html" } ∧
    newEntryGet [("a", eA)] (some "bogus") = .redirect "/new" :=
  C10_edit_bad_key_falls_through [("a", eA)] (some [eA])
    { nickname := "ben", isAdmin := true } "bogus" "T" "B" "" 9 "f"
    (by decide) (by decide)

end Blog
